import Mathlib

/-!
# Verification of the kraken-nike-rocket-api billing / reconciliation core

Shallow embedding of the billing-cycle, balance-reconciliation and
trade-reconciliation logic of the repository.  Currency amounts, prices and
timestamps are modelled as exact rationals (`ℚ`); the Python `round(x, 2)`
used by the billing spec is modelled as rounding to the nearest cent.
Database tables are modelled as lists of rows; fallible external calls
return `Option`.
-/

/-- Rounding to two decimal places, `round(x, 2)` of the billing formulas. -/
def round2 (q : ℚ) : ℚ := (round (q * 100) : ℚ) / 100

/-! ## Payment webhook (src/follower_endpoints.py, `coinbase_webhook`)

The `charge:confirmed` branch of the webhook: it looks up the user and the
payment row for the charge id, marks the payment completed, and then
unconditionally marks the user paid and adds `monthly_fee_due` to
`total_fees_paid`, restoring access. -/

/-- The fields of a `follower_users` row touched by the webhook. -/
structure FollowerUser where
  monthly_fee_due : ℚ
  monthly_fee_paid : Bool
  total_fees_paid : ℚ
  access_granted : Bool
  deriving Repr, DecidableEq

/-- A `payments` row as read by the webhook (status is `pending`/`completed`). -/
structure PaymentRow where
  coinbase_charge_id : String
  status : String
  deriving Repr, DecidableEq

/-- The `charge:confirmed` branch of `coinbase_webhook`
(src/follower_endpoints.py lines 569-608): update the payment row for the
charge id to `completed`, then set `monthly_fee_paid`, add the full
`monthly_fee_due` to `total_fees_paid` and restore access.  There is no
check of whether the charge id was already processed, and
`monthly_fee_due` is not cleared. -/
def coinbase_webhook (u : FollowerUser) (payments : List PaymentRow)
    (charge_id : String) : FollowerUser × List PaymentRow :=
  let payments2 := payments.map fun p =>
    if p.coinbase_charge_id = charge_id then { p with status := "completed" } else p
  ({ u with
      monthly_fee_paid := true
      total_fees_paid := u.total_fees_paid + u.monthly_fee_due
      access_granted := true }, payments2)

/-! ## Fee tiers and per-trade fee (src/trade_reconciliation.py, `backfill_trades`) -/

/-- `fee_rates = {'team': 0.0, 'vip': 0.05, 'standard': 0.10}` together with
`fee_rates.get(fee_tier, 0.10)`: the rate looked up for a tier string, with
`0.10` for anything not in the table. -/
def fee_rates_get (fee_tier : String) : ℚ :=
  if fee_tier = "team" then 0
  else if fee_tier = "vip" then 5/100
  else if fee_tier = "standard" then 10/100
  else 10/100

/-- `fee_charged = max(0, trade['pnl_usd'] * fee_rate) if trade['pnl_usd'] > 0 else 0`
(src/trade_reconciliation.py line 188).  Note: no rounding is applied. -/
def fee_charged (pnl_usd fee_rate : ℚ) : ℚ :=
  if pnl_usd > 0 then max 0 (pnl_usd * fee_rate) else 0

/-- Modelled from the spec: the cycle-close fee computation of
`billing_service_30day.check_all_cycles`, which is not under src/ (only its
tests are).  Spec: determine `fee_rate` from the tier table
(standard 10% / vip 5% / team 0%, unrecognized or empty defaults to
standard) and `fee_amount = round(max(current_cycle_profit, 0) * fee_rate, 2)`. -/
def cycle_fee_amount (current_cycle_profit : ℚ) (fee_tier : String) : ℚ :=
  round2 (max current_cycle_profit 0 * fee_rates_get fee_tier)

/-! ## Balance checker (src/balance_checker.py, class `BalanceChecker`) -/

/-- A `portfolio_transactions` row as inserted by `record_transaction`. -/
structure TransactionRow where
  transaction_type : String
  amount : ℚ
  balance_before : ℚ
  balance_after : ℚ
  detection_method : String
  deriving Repr, DecidableEq

/-- The transaction-recording part of `check_user_balance`
(src/balance_checker.py lines 170-192): with `difference =
current_balance - expected_balance`, if `abs(difference) > threshold`
record exactly one transaction (deposit when positive, else withdrawal,
amount `abs(difference)`, before/after balances, method `automatic`);
otherwise record nothing. -/
def check_user_balance (threshold current_balance expected_balance : ℚ) :
    List TransactionRow :=
  let difference := current_balance - expected_balance
  if |difference| > threshold then
    [{ transaction_type := if difference > 0 then "deposit" else "withdrawal"
       amount := |difference|
       balance_before := expected_balance
       balance_after := current_balance
       detection_method := "automatic" }]
  else []

/-- `get_kraken_balance` success path (src/balance_checker.py lines 197-221):
scan the returned account balance for the first of `USDT`, `ZUSD`, `USD`
present and take its volume, defaulting to `0` when none is present; a
successful fetch always returns `some`. -/
def get_kraken_balance (balance : List (String × ℚ)) : Option ℚ :=
  let usdt_balance :=
    match (["USDT", "ZUSD", "USD"].filter fun c => (balance.lookup c).isSome) with
    | [] => 0
    | c :: _ => ((balance.lookup c).getD 0)
  some usdt_balance

/-- `check_user_balance` including the balance fetch
(src/balance_checker.py lines 150-195): a `None` fetch result aborts the
check (no transaction is recorded); otherwise the diff/record logic runs
on the fetched balance. -/
def check_user_balance_run (balance : List (String × ℚ))
    (threshold expected_balance : ℚ) : List TransactionRow :=
  match get_kraken_balance balance with
  | none => []
  | some current_balance => check_user_balance threshold current_balance expected_balance

/-- A `portfolio_trades` row as read by `calculate_expected_balance`
(only the joined user, exit time and pnl matter; `pnl` may be NULL). -/
structure PortfolioTradeRow where
  user_api_key : String
  exit_time : ℚ
  pnl : Option ℚ
  deriving Repr, DecidableEq

/-- `calculate_expected_balance` (src/balance_checker.py lines 227-273):
`last_known_balance or 0` plus the sum of `pnl or 0` over the user's
trades, restricted to `exit_time > last_balance_check` when a last check
exists, unrestricted otherwise. -/
def calculate_expected_balance (trades : List PortfolioTradeRow)
    (user_api_key : String) (last_known_balance : Option ℚ)
    (last_balance_check : Option ℚ) : ℚ :=
  let last_balance := last_known_balance.getD 0
  let rows :=
    match last_balance_check with
    | some t => trades.filter fun r : PortfolioTradeRow =>
        decide (r.user_api_key = user_api_key ∧ t < r.exit_time)
    | none => trades.filter fun r : PortfolioTradeRow =>
        decide (r.user_api_key = user_api_key)
  last_balance + (rows.map fun r => r.pnl.getD 0).sum

/-- The summary computed by `get_balance_summary`
(src/balance_checker.py lines 385-437). -/
structure BalanceSummary where
  initial_capital : ℚ
  net_deposits : ℚ
  total_capital : ℚ
  total_profit : ℚ
  current_value : ℚ
  roi_on_initial : ℚ
  roi_on_total : ℚ
  deriving Repr, DecidableEq

/-- `get_balance_summary` derived-metrics computation
(src/balance_checker.py lines 385-437): substitute `1` for a
non-positive initial capital, substitute the (guarded) initial capital for
a non-positive total capital, compute both ROI percentages and clamp each
to `[-10000, 10000]`. -/
def get_balance_summary (initial0 deposits withdrawals profit : ℚ) :
    BalanceSummary :=
  let initial := if initial0 ≤ 0 then 1 else initial0
  let net_deposits := deposits - withdrawals
  let total_capital0 := initial + net_deposits
  let total_capital := if total_capital0 ≤ 0 then initial else total_capital0
  let current_value := total_capital + profit
  let roi_on_initial0 := if initial > 0 then profit / initial * 100 else 0
  let roi_on_total0 := if total_capital > 0 then profit / total_capital * 100 else 0
  { initial_capital := initial
    net_deposits := net_deposits
    total_capital := total_capital
    total_profit := profit
    current_value := current_value
    roi_on_initial := min (max roi_on_initial0 (-10000)) 10000
    roi_on_total := min (max roi_on_total0 (-10000)) 10000 }

/-! ## Fill pairing (src/trade_reconciliation.py, `get_kraken_closed_trades`)

One open-position accumulator per symbol; fills are processed in timestamp
order; a fill opens/extends when the accumulator is empty or its direction
matches the position side, otherwise it closes `min(amount, total_amount)`. -/

/-- A raw exchange fill as consumed by the pairing loop. -/
structure Fill where
  symbol : String
  side : String
  amount : ℚ
  price : ℚ
  timestamp : ℚ
  fee : ℚ
  deriving Repr, DecidableEq

/-- An entry recorded in `pos['entries']`. -/
structure EntryFill where
  timestamp : ℚ
  price : ℚ
  amount : ℚ
  side : String
  deriving Repr, DecidableEq

/-- The per-symbol accumulator `positions[trade_key]`. -/
structure PositionAcc where
  entries : List EntryFill
  side : Option String
  total_amount : ℚ
  avg_entry : ℚ
  deriving Repr, DecidableEq

/-- The reset/initial accumulator value. -/
def emptyPositionAcc : PositionAcc :=
  { entries := [], side := none, total_amount := 0, avg_entry := 0 }

/-- A realized round trip as appended to `round_trips`. -/
structure RoundTrip where
  symbol : String
  side : String
  entry_price : ℚ
  exit_price : ℚ
  quantity : ℚ
  pnl_usd : ℚ
  pnl_pct : ℚ
  entry_time : ℚ
  exit_time : ℚ
  fee : ℚ
  deriving Repr, DecidableEq

/-- Processing of one fill against its symbol's accumulator
(src/trade_reconciliation.py lines 89-152): opening updates the weighted
average entry and appends the entry; closing realizes a round trip for
`min(amount, total_amount)` with side-aware P&L, percent P&L
`(exit/entry - 1)*100` for long and `(entry/exit - 1)*100` for short,
then decrements the open amount and resets the accumulator when it
reaches zero. -/
def stepFill (pos : PositionAcc) (f : Fill) : PositionAcc × Option RoundTrip :=
  let is_opening :=
    pos.total_amount = 0 ∨
    (pos.side = some "long" ∧ f.side = "buy") ∨
    (pos.side = some "short" ∧ f.side = "sell")
  if is_opening then
    let side2 := if pos.total_amount = 0 then
        (if f.side = "buy" then some "long" else some "short")
      else pos.side
    let total_cost := pos.avg_entry * pos.total_amount + f.price * f.amount
    let total2 := pos.total_amount + f.amount
    let avg2 := if total2 > 0 then total_cost / total2 else 0
    ({ entries := pos.entries ++
        [{ timestamp := f.timestamp, price := f.price,
           amount := f.amount, side := f.side }]
       side := side2
       total_amount := total2
       avg_entry := avg2 }, none)
  else
    let close_amount := min f.amount pos.total_amount
    let entry_price := pos.avg_entry
    let exit_price := f.price
    let pnl := if pos.side = some "long" then
        (exit_price - entry_price) * close_amount
      else (entry_price - exit_price) * close_amount
    let pnl_pct := if pos.side = some "long" then
        (exit_price / entry_price - 1) * 100
      else (entry_price / exit_price - 1) * 100
    let rt : RoundTrip :=
      { symbol := f.symbol
        side := pos.side.getD ""
        entry_price := entry_price
        exit_price := exit_price
        quantity := close_amount
        pnl_usd := pnl
        pnl_pct := pnl_pct
        entry_time := match pos.entries with
          | e :: _ => e.timestamp
          | [] => f.timestamp
        exit_time := f.timestamp
        fee := f.fee }
    let total2 := pos.total_amount - close_amount
    let pos2 := if total2 ≤ 0 then emptyPositionAcc
      else { pos with total_amount := total2 }
    (pos2, some rt)

/-- The loop state: the symbol-keyed accumulator map and the round trips
accumulated so far. -/
def pairStep (st : (String → PositionAcc) × List RoundTrip) (f : Fill) :
    (String → PositionAcc) × List RoundTrip :=
  let pos := st.1 f.symbol
  let res := stepFill pos f
  (fun s => if s = f.symbol then res.1 else st.1 s,
   st.2 ++ res.2.toList)

/-- `get_kraken_closed_trades` pairing pass
(src/trade_reconciliation.py lines 64-154): sort the fetched fills by
timestamp and fold the per-fill processing over them, collecting round
trips. -/
def get_kraken_closed_trades (fills : List Fill) : List RoundTrip :=
  ((fills.insertionSort fun a b => a.timestamp ≤ b.timestamp).foldl
    pairStep (fun _ => emptyPositionAcc, [])).2

/-- The accumulator map left after the pairing pass. -/
def pairPositions (fills : List Fill) : String → PositionAcc :=
  ((fills.insertionSort fun a b => a.timestamp ≤ b.timestamp).foldl
    pairStep (fun _ => emptyPositionAcc, [])).1

/-! ## Trade backfill (src/trade_reconciliation.py, `backfill_trades`) -/

/-- A `portfolio_trades` row as used by the duplicate check and the insert
(user id, symbol, exit epoch seconds, profit and fee). -/
structure PortfolioTradesRow where
  user_id : Nat
  symbol : String
  exit_epoch : ℚ
  profit_usd : ℚ
  fee_charged : ℚ
  deriving Repr, DecidableEq

/-- The duplicate query of `backfill_trades`
(src/trade_reconciliation.py lines 176-181): a trade of the same user and
symbol whose stored exit time is within 60 seconds of the round trip's
`exit_time / 1000`. -/
def trade_exists (db : List PortfolioTradesRow) (user_id : Nat)
    (rt : RoundTrip) : Bool :=
  db.any fun t =>
    decide (t.user_id = user_id ∧ t.symbol = rt.symbol ∧
      |t.exit_epoch - rt.exit_time / 1000| < 60)

/-- The row inserted for a round trip
(src/trade_reconciliation.py lines 191-211): stored exit time is the round
trip's `exit_time / 1000`, the fee is `fee_charged`. -/
def insertedRow (user_id : Nat) (fee_rate : ℚ) (rt : RoundTrip) :
    PortfolioTradesRow :=
  { user_id := user_id
    symbol := rt.symbol
    exit_epoch := rt.exit_time / 1000
    profit_usd := rt.pnl_usd
    fee_charged := fee_charged rt.pnl_usd fee_rate }

/-- `backfill_trades` (src/trade_reconciliation.py lines 163-231): for each
round trip in order, skip it when a duplicate exists in the table as grown
so far, otherwise insert it and count it; returns the grown table and the
number of inserted rows. -/
def backfill_trades (db : List PortfolioTradesRow) (user_id : Nat)
    (round_trips : List RoundTrip) (fee_tier : String) :
    List PortfolioTradesRow × Nat :=
  match round_trips with
  | [] => (db, 0)
  | rt :: rest =>
    if trade_exists db user_id rt then
      backfill_trades db user_id rest fee_tier
    else
      let res := backfill_trades
        (db ++ [insertedRow user_id (fee_rates_get fee_tier) rt])
        user_id rest fee_tier
      (res.1, res.2 + 1)

/-! ## Billing cycle engine (spec-modelled)

The `billing_service_30day.py` module that implements `check_all_cycles`
and `start_billing_cycle` is not under src/; only its integration tests
(src/tests/test_billing_integration.py) and the spec describe it. -/

/-- The billing fields of a `follower_users` row. -/
structure BillingUser where
  id : Nat
  access_granted : Bool
  credentials_set : Bool
  billing_cycle_start : Option ℚ
  current_cycle_profit : ℚ
  current_cycle_trades : Nat
  fee_tier : String
  next_cycle_fee_tier : Option String
  pending_invoice_id : Option String
  pending_invoice_amount : ℚ
  deriving Repr, DecidableEq

/-- An external charge-creation request issued at cycle close. -/
structure ChargeRequest where
  user_id : Nat
  amount : ℚ
  deriving Repr, DecidableEq

/-- Modelled from the spec: the per-user body of
`billing_service_30day.check_all_cycles`, which is not under src/.
Spec: consider only users with `access_granted`, `credentials_set`, a
started cycle and no `pending_invoice_id`; skip when
`elapsed < cycle_days`; otherwise compute the fee, create a charge and
store it as the pending invoice when the fee is positive (waive
otherwise), apply any `next_cycle_fee_tier`, and reset profit, trade
count and `billing_cycle_start`. -/
def process_user_cycle (now cycle_days : ℚ) (mk_charge_id : Nat → String)
    (u : BillingUser) : BillingUser × Option ChargeRequest :=
  match u.billing_cycle_start with
  | none => (u, none)
  | some start =>
    if u.access_granted ∧ u.credentials_set ∧ u.pending_invoice_id = none then
      if now - start < cycle_days then (u, none)
      else
        let fee := cycle_fee_amount u.current_cycle_profit u.fee_tier
        let invoiced := 0 < fee
        ({ u with
            fee_tier := u.next_cycle_fee_tier.getD u.fee_tier
            next_cycle_fee_tier := none
            current_cycle_profit := 0
            current_cycle_trades := 0
            billing_cycle_start := some now
            pending_invoice_id := if invoiced then some (mk_charge_id u.id) else none
            pending_invoice_amount := if invoiced then fee else 0 },
         if invoiced then some { user_id := u.id, amount := fee } else none)
    else (u, none)

/-- Modelled from the spec: `billing_service_30day.check_all_cycles`
(not under src/) runs the per-user cycle evaluation over every user,
collecting the updated users and the charges created. -/
def check_all_cycles (now cycle_days : ℚ) (mk_charge_id : Nat → String)
    (users : List BillingUser) : List BillingUser × List ChargeRequest :=
  let results := users.map (process_user_cycle now cycle_days mk_charge_id)
  (results.map Prod.fst, results.filterMap Prod.snd)

/-! ## Helper lemmas -/

/-- Every tier rate in the table (and the default) is nonnegative. -/
lemma fee_rates_get_nonneg (t : String) : 0 ≤ fee_rates_get t := by
  unfold fee_rates_get
  split
  · norm_num
  · split
    · norm_num
    · split <;> norm_num

/-- Rounding to cents sends zero to zero. -/
lemma round2_zero : round2 0 = 0 := by
  simp [round2]

/-! ## Claims -/

/-- Evaluation of the tier table at the named tiers and at fallbacks. -/
lemma fee_rates_get_eval :
    fee_rates_get "standard" = 10/100 ∧ fee_rates_get "vip" = 5/100 ∧
    fee_rates_get "team" = 0 ∧ fee_rates_get "" = 10/100 := by
  refine ⟨?_, ?_, ?_, ?_⟩ <;>
    · unfold fee_rates_get
      simp

/-- C1: the `charge:confirmed` branch of `coinbase_webhook` is not
idempotent.  Confirming the same charge id a second time adds
`monthly_fee_due` to `total_fees_paid` again (the code neither checks
whether the charge was already processed nor clears `monthly_fee_due`):
a user owing 100 ends with `total_fees_paid = 200` after two webhook
deliveries for the same charge. -/
theorem coinbase_webhook_double_confirm_double_credits :
    let u0 : FollowerUser :=
      { monthly_fee_due := 100, monthly_fee_paid := false,
        total_fees_paid := 0, access_granted := true }
    let ps0 : List PaymentRow :=
      [{ coinbase_charge_id := "charge_abc", status := "pending" }]
    let r1 := coinbase_webhook u0 ps0 "charge_abc"
    let r2 := coinbase_webhook r1.1 r1.2 "charge_abc"
    r2.1.total_fees_paid = 200 ∧ r2.1.monthly_fee_due = 100 := by
  refine ⟨?_, ?_⟩
  · simp [coinbase_webhook]
    norm_num
  · simp [coinbase_webhook]

/-- C2 (counterexample): the per-trade fee computed during backfill is not
the rounded fee of the billing formula: for a trade profit of 1.11 at the
standard 10% rate the backfill charges exactly 0.111, whereas
`round(max(p, 0) * rate, 2)` gives 0.11. -/
theorem backfill_fee_unrounded_counterexample :
    fee_charged (111/100) (fee_rates_get "standard") = 111/1000 ∧
    cycle_fee_amount (111/100) "standard" = 11/100 ∧
    (111/1000 : ℚ) ≠ 11/100 := by
  have hs : fee_rates_get "standard" = 10/100 := fee_rates_get_eval.1
  refine ⟨?_, ?_, by norm_num⟩
  · unfold fee_charged
    rw [hs, if_pos (by norm_num : (111:ℚ)/100 > 0),
      max_eq_right (by norm_num : (0:ℚ) ≤ 111/100 * (10/100))]
    norm_num
  · unfold cycle_fee_amount round2
    rw [hs, max_eq_left (by norm_num : (0:ℚ) ≤ 111/100)]
    have h1 : (111/100 * (10/100) * 100 : ℚ) = 111/10 := by norm_num
    rw [h1, round_eq]
    have h2 : ((111:ℚ)/10 + 1/2) = 58/5 := by norm_num
    rw [h2]
    have h3 : ⌊(58:ℚ)/5⌋ = (11:ℤ) := by
      rw [Int.floor_eq_iff]
      norm_num
    rw [h3]
    norm_num

/-- C2 (amended): for a closed cycle the fee is
`round(max(p, 0) * rate(t), 2)` with rate standard 10% / vip 5% / team 0%
and anything unrecognized or empty treated as standard, and the fee is 0
for `p ≤ 0`; the trade backfill uses the same tier table and also charges
nothing on non-positive profit, but applies no rounding: its per-trade fee
is exactly `max(p, 0) * rate(t)`. -/
theorem fee_formula_amended (p : ℚ) (t : String) :
    fee_charged p (fee_rates_get t) = max p 0 * fee_rates_get t ∧
    (p ≤ 0 → fee_charged p (fee_rates_get t) = 0 ∧ cycle_fee_amount p t = 0) ∧
    cycle_fee_amount p t = round2 (max p 0 * fee_rates_get t) ∧
    fee_rates_get "standard" = 10/100 ∧ fee_rates_get "vip" = 5/100 ∧
    fee_rates_get "team" = 0 ∧ fee_rates_get "" = 10/100 ∧
    (t ≠ "team" → t ≠ "vip" → t ≠ "standard" → fee_rates_get t = 10/100) := by
  have hr := fee_rates_get_nonneg t
  obtain ⟨e1, e2, e3, e4⟩ := fee_rates_get_eval
  refine ⟨?_, ?_, rfl, e1, e2, e3, e4, ?_⟩
  · unfold fee_charged
    split
    · next hp =>
      rw [max_eq_right (mul_nonneg hp.le hr), max_eq_left hp.le]
    · next hp =>
      push_neg at hp
      rw [max_eq_right hp, zero_mul]
  · intro hp
    have h0 : max p 0 = 0 := max_eq_right hp
    constructor
    · unfold fee_charged
      split
      · next hgt => linarith
      · rfl
    · unfold cycle_fee_amount
      rw [h0, zero_mul, round2_zero]
  · intro h1 h2 h3
    simp [fee_rates_get, h1, h2, h3]

/-- C2 (witness): a losing cycle of -500 at an unrecognized tier is charged
nothing by both the billing formula and the backfill. -/
theorem fee_formula_amended_witness :
    fee_charged (-500) (fee_rates_get "bogus") = 0 ∧
    cycle_fee_amount (-500) "bogus" = 0 :=
  (fee_formula_amended (-500) "bogus").2.1 (by norm_num)

/-- C3: the single-user balance check records no transaction when the
absolute difference is within the threshold, and exactly one transaction
when it exceeds it — type `deposit` for a positive difference and
`withdrawal` for a negative one, amount `|difference|`, with the expected
balance before, the current balance after, and method `automatic`. -/
theorem check_user_balance_threshold_contract
    (threshold current expected : ℚ) :
    (|current - expected| ≤ threshold →
      check_user_balance threshold current expected = []) ∧
    (threshold < |current - expected| → 0 < current - expected →
      check_user_balance threshold current expected =
        [{ transaction_type := "deposit", amount := |current - expected|,
           balance_before := expected, balance_after := current,
           detection_method := "automatic" }]) ∧
    (threshold < |current - expected| → current - expected < 0 →
      check_user_balance threshold current expected =
        [{ transaction_type := "withdrawal", amount := |current - expected|,
           balance_before := expected, balance_after := current,
           detection_method := "automatic" }]) := by
  refine ⟨?_, ?_, ?_⟩
  · intro h
    unfold check_user_balance
    rw [if_neg (by push_neg; exact h)]
  · intro h hpos
    unfold check_user_balance
    rw [if_pos h, if_pos hpos]
  · intro h hneg
    unfold check_user_balance
    rw [if_pos h, if_neg (by linarith)]

/-- C3 (witness): current 125 against expected 100 at the default $10
threshold records exactly one automatic deposit of 25. -/
theorem check_user_balance_threshold_contract_witness :
    check_user_balance 10 125 100 =
      [{ transaction_type := "deposit", amount := 25,
         balance_before := 100, balance_after := 125,
         detection_method := "automatic" }] := by
  have h := (check_user_balance_threshold_contract 10 125 100).2.1
    (by norm_num) (by norm_num)
  norm_num at h
  exact h

/-- C4: `calculate_expected_balance` returns `last_known_balance` (0 when
never recorded) plus the sum of pnl over exactly the rows of that user,
restricted to exit times strictly later than the last balance check when
one exists, and over all of the user's rows when it was never set. -/
theorem calculate_expected_balance_eq (trades : List PortfolioTradeRow)
    (key : String) (lkb lbc : Option ℚ) :
    calculate_expected_balance trades key lkb lbc =
      lkb.getD 0 +
        ((((trades.filter fun r => decide (r.user_api_key = key)).filter fun r =>
            match lbc with
            | some t => decide (t < r.exit_time)
            | none => true).map fun r => r.pnl.getD 0).sum) := by
  cases lbc with
  | none =>
    unfold calculate_expected_balance
    simp
  | some t =>
    unfold calculate_expected_balance
    simp only [List.filter_filter]
    have hpq : (fun r : PortfolioTradeRow =>
        decide (r.user_api_key = key ∧ t < r.exit_time)) =
        (fun r : PortfolioTradeRow =>
          decide (t < r.exit_time) && decide (r.user_api_key = key)) := by
      funext r
      by_cases h1 : r.user_api_key = key <;>
        by_cases h2 : t < r.exit_time <;> simp [h1, h2]
    rw [hpq]

/-- C5: a user whose `pending_invoice_id` is already set is skipped
entirely by `check_all_cycles`: the per-user cycle evaluation leaves the
user unchanged and creates no charge, and a run over users who all have
pending invoices changes nothing and creates no charges at all. -/
theorem check_all_cycles_skips_pending_invoice (now cycle_days : ℚ)
    (mk_charge_id : Nat → String) (u : BillingUser)
    (h : u.pending_invoice_id.isSome) :
    process_user_cycle now cycle_days mk_charge_id u = (u, none) ∧
    ∀ users : List BillingUser,
      (∀ v ∈ users, v.pending_invoice_id.isSome) →
      check_all_cycles now cycle_days mk_charge_id users = (users, []) := by
  have key : ∀ v : BillingUser, v.pending_invoice_id.isSome →
      process_user_cycle now cycle_days mk_charge_id v = (v, none) := by
    intro v hv
    have hnot : ¬ (v.access_granted = true ∧ v.credentials_set = true ∧
        v.pending_invoice_id = none) := by
      rintro ⟨-, -, hnone⟩
      rw [hnone] at hv
      simp at hv
    unfold process_user_cycle
    cases hb : v.billing_cycle_start with
    | none => rfl
    | some start =>
      dsimp only
      rw [if_neg hnot]
  refine ⟨key u h, ?_⟩
  intro users hall
  unfold check_all_cycles
  induction users with
  | nil => rfl
  | cons v rest ih =>
    have hv := key v (hall v (by simp))
    have hrest := ih fun w hw => hall w (by simp [hw])
    simp only [List.map_cons, List.filterMap_cons, hv,
      Prod.mk.injEq] at hrest ⊢
    refine ⟨by simp [hrest.1], by simp [hrest.2]⟩

/-- C5 (witness): a concrete eligible-looking user with a pending invoice
is left untouched and gets no new charge. -/
theorem check_all_cycles_skips_pending_invoice_witness :
    process_user_cycle 1000 30 (fun _ => "new_charge")
      { id := 7, access_granted := true, credentials_set := true,
        billing_cycle_start := some 0, current_cycle_profit := 1000,
        current_cycle_trades := 10, fee_tier := "standard",
        next_cycle_fee_tier := none,
        pending_invoice_id := some "existing_invoice_123",
        pending_invoice_amount := 50 } =
      ({ id := 7, access_granted := true, credentials_set := true,
         billing_cycle_start := some 0, current_cycle_profit := 1000,
         current_cycle_trades := 10, fee_tier := "standard",
         next_cycle_fee_tier := none,
         pending_invoice_id := some "existing_invoice_123",
         pending_invoice_amount := 50 }, none) :=
  (check_all_cycles_skips_pending_invoice 1000 30 (fun _ => "new_charge")
    _ (by simp)).1

/-- C8: `get_balance_summary` never divides by zero and never returns a
degenerate ROI: the effective initial capital and total capital used as
divisors are always strictly positive (1 is substituted when the stored
initial capital is non-positive), and both ROI figures are clamped to
`[-10000, 10000]`. -/
theorem get_balance_summary_roi_bounded
    (initial0 deposits withdrawals profit : ℚ) :
    0 < (get_balance_summary initial0 deposits withdrawals profit).initial_capital ∧
    0 < (get_balance_summary initial0 deposits withdrawals profit).total_capital ∧
    (initial0 ≤ 0 →
      (get_balance_summary initial0 deposits withdrawals profit).initial_capital = 1) ∧
    -10000 ≤ (get_balance_summary initial0 deposits withdrawals profit).roi_on_initial ∧
    (get_balance_summary initial0 deposits withdrawals profit).roi_on_initial ≤ 10000 ∧
    -10000 ≤ (get_balance_summary initial0 deposits withdrawals profit).roi_on_total ∧
    (get_balance_summary initial0 deposits withdrawals profit).roi_on_total ≤ 10000 := by
  unfold get_balance_summary
  dsimp only
  have hipos : 0 < (if initial0 ≤ 0 then (1:ℚ) else initial0) := by
    split
    · norm_num
    · next h => push_neg at h; exact h
  refine ⟨hipos, ?_, ?_,
    le_min (le_max_right _ _) (by norm_num), min_le_right _ _,
    le_min (le_max_right _ _) (by norm_num), min_le_right _ _⟩
  · split_ifs with h1 h2 <;> push_neg at * <;> linarith
  · intro h0
    rw [if_pos h0]

/-- C8 (witness): with a stored initial capital of 0, deposits 0,
withdrawals 50 and profit -30 the summary still uses positive divisors and
in-range ROI values. -/
theorem get_balance_summary_roi_bounded_witness :
    0 < (get_balance_summary 0 0 50 (-30)).initial_capital ∧
    (get_balance_summary 0 0 50 (-30)).initial_capital = 1 ∧
    0 < (get_balance_summary 0 0 50 (-30)).total_capital ∧
    -10000 ≤ (get_balance_summary 0 0 50 (-30)).roi_on_initial ∧
    (get_balance_summary 0 0 50 (-30)).roi_on_initial ≤ 10000 := by
  obtain ⟨a, b, c, d, e, -, -⟩ := get_balance_summary_roi_bounded 0 0 50 (-30)
  exact ⟨a, c (by norm_num), b, d, e⟩

/-- C9: when the exchange returns an account balance holding none of
USDT/ZUSD/USD, `get_kraken_balance` succeeds with 0 instead of failing, so
the balance check proceeds with a current balance of 0 and records the
user's whole expected balance (when above the threshold) as one automatic
withdrawal. -/
theorem missing_currency_becomes_withdrawal
    (balance : List (String × ℚ)) (threshold expected : ℚ)
    (h1 : balance.lookup "USDT" = none) (h2 : balance.lookup "ZUSD" = none)
    (h3 : balance.lookup "USD" = none) (h4 : 0 ≤ threshold)
    (h5 : threshold < expected) :
    get_kraken_balance balance = some 0 ∧
    check_user_balance_run balance threshold expected =
      [{ transaction_type := "withdrawal", amount := expected,
         balance_before := expected, balance_after := 0,
         detection_method := "automatic" }] := by
  have hexp : 0 < expected := lt_of_le_of_lt h4 h5
  have hb : get_kraken_balance balance = some 0 := by
    unfold get_kraken_balance
    simp [h1, h2, h3]
  refine ⟨hb, ?_⟩
  unfold check_user_balance_run
  rw [hb]
  dsimp only
  unfold check_user_balance
  dsimp only
  have habs : |(0:ℚ) - expected| = expected := by
    rw [zero_sub, abs_neg, abs_of_pos hexp]
  rw [if_pos (by rw [habs]; exact h5),
    if_neg (by rw [zero_sub]; push_neg; linarith), habs]

/-- C9 (witness): an account holding only an XBT balance, with expected
balance 100 and threshold 10, yields one automatic withdrawal of 100. -/
theorem missing_currency_becomes_withdrawal_witness :
    get_kraken_balance [("XBT", (5:ℚ))] = some 0 ∧
    check_user_balance_run [("XBT", (5:ℚ))] 10 100 =
      [{ transaction_type := "withdrawal", amount := 100,
         balance_before := 100, balance_after := 0,
         detection_method := "automatic" }] :=
  missing_currency_becomes_withdrawal [("XBT", (5:ℚ))] 10 100
    rfl rfl rfl (by norm_num) (by norm_num)

/-- A duplicate stays a duplicate as the trade table grows. -/
lemma trade_exists_append (db ext : List PortfolioTradesRow) (uid : Nat)
    (rt : RoundTrip) (h : trade_exists db uid rt = true) :
    trade_exists (db ++ ext) uid rt = true := by
  unfold trade_exists at *
  rw [List.any_append, h, Bool.true_or]

/-- `backfill_trades` only appends rows to the table. -/
lemma backfill_trades_grows (db : List PortfolioTradesRow) (uid : Nat)
    (rts : List RoundTrip) (tier : String) :
    ∃ ext, (backfill_trades db uid rts tier).1 = db ++ ext := by
  induction rts generalizing db with
  | nil => exact ⟨[], by simp [backfill_trades]⟩
  | cons rt rest ih =>
    unfold backfill_trades
    split
    · exact ih db
    · obtain ⟨ext, hext⟩ :=
        ih (db ++ [insertedRow uid (fee_rates_get tier) rt])
      refine ⟨[insertedRow uid (fee_rates_get tier) rt] ++ ext, ?_⟩
      dsimp only
      rw [hext, List.append_assoc]

/-- The row inserted for a round trip matches the duplicate query for that
same round trip: same user, same symbol, stored exit time exactly equal. -/
lemma inserted_row_is_duplicate (db : List PortfolioTradesRow) (uid : Nat)
    (r : ℚ) (rt : RoundTrip) :
    trade_exists (db ++ [insertedRow uid r rt]) uid rt = true := by
  unfold trade_exists
  rw [List.any_append]
  have h1 : List.any [insertedRow uid r rt]
      (fun t => decide (t.user_id = uid ∧ t.symbol = rt.symbol ∧
        |t.exit_epoch - rt.exit_time / 1000| < 60)) = true := by
    simp only [List.any_cons, List.any_nil, Bool.or_false, decide_eq_true_eq,
      insertedRow]
    refine ⟨trivial, trivial, ?_⟩
    rw [sub_self, abs_zero]
    norm_num
  rw [h1, Bool.or_true]

/-- After one backfill pass, every round trip of the input list matches a
row of the resulting table. -/
lemma backfill_trades_covers (db : List PortfolioTradesRow) (uid : Nat)
    (rts : List RoundTrip) (tier : String) :
    ∀ rt ∈ rts, trade_exists (backfill_trades db uid rts tier).1 uid rt = true := by
  induction rts generalizing db with
  | nil => intro rt h; cases h
  | cons hd rest ih =>
    intro rt hmem
    unfold backfill_trades
    split
    · next hdup =>
      rcases List.mem_cons.mp hmem with rfl | hmem2
      · obtain ⟨ext, hext⟩ := backfill_trades_grows db uid rest tier
        rw [hext]
        exact trade_exists_append _ _ _ _ hdup
      · exact ih db rt hmem2
    · next hdup =>
      dsimp only
      rcases List.mem_cons.mp hmem with rfl | hmem2
      · obtain ⟨ext, hext⟩ := backfill_trades_grows
          (db ++ [insertedRow uid (fee_rates_get tier) rt]) uid rest tier
        rw [hext]
        exact trade_exists_append _ _ _ _ (inserted_row_is_duplicate db uid _ rt)
      · exact ih (db ++ [insertedRow uid (fee_rates_get tier) hd]) rt hmem2

/-- A backfill pass over round trips that all already have duplicates
inserts nothing and leaves the table unchanged. -/
lemma backfill_trades_all_duplicates (db : List PortfolioTradesRow) (uid : Nat)
    (rts : List RoundTrip) (tier : String)
    (h : ∀ rt ∈ rts, trade_exists db uid rt = true) :
    backfill_trades db uid rts tier = (db, 0) := by
  induction rts with
  | nil => rfl
  | cons hd rest ih =>
    unfold backfill_trades
    rw [if_pos (h hd (by simp))]
    exact ih fun rt hm => h rt (by simp [hm])

/-- C7: trade backfill is idempotent over the trade store.  Running
`backfill_trades` a second time over the same round trips inserts nothing:
every round trip now matches (within the 60-second tolerance, here
exactly) a row written or found by the first run, so the second run skips
all of them and returns the table unchanged with an insert count of 0. -/
theorem backfill_trades_idempotent (db : List PortfolioTradesRow) (uid : Nat)
    (rts : List RoundTrip) (tier : String) :
    backfill_trades (backfill_trades db uid rts tier).1 uid rts tier =
      ((backfill_trades db uid rts tier).1, 0) :=
  backfill_trades_all_duplicates _ _ _ _ (backfill_trades_covers db uid rts tier)

/-- Processing one fill with nonnegative amount keeps the open amount
nonnegative. -/
lemma stepFill_total_nonneg (pos : PositionAcc) (f : Fill)
    (hpos : 0 ≤ pos.total_amount) (hf : 0 ≤ f.amount) :
    0 ≤ ((stepFill pos f).1).total_amount := by
  unfold stepFill
  dsimp only
  split
  · dsimp only
    exact add_nonneg hpos hf
  · dsimp only
    split
    · next => norm_num [emptyPositionAcc]
    · next h => push_neg at h; exact h.le

/-- Folding the pairing step over fills with nonnegative amounts keeps
every symbol's open amount nonnegative. -/
lemma pairStep_foldl_nonneg (fills : List Fill) :
    ∀ st : (String → PositionAcc) × List RoundTrip,
      (∀ s, 0 ≤ (st.1 s).total_amount) → (∀ f ∈ fills, 0 ≤ f.amount) →
      ∀ s, 0 ≤ (((fills.foldl pairStep st).1) s).total_amount := by
  induction fills with
  | nil => intro st hst _ s; exact hst s
  | cons f rest ih =>
    intro st hst hf s
    rw [List.foldl_cons]
    apply ih
    · intro s2
      unfold pairStep
      dsimp only
      split
      · exact stepFill_total_nonneg _ _ (hst f.symbol) (hf f (by simp))
      · exact hst s2
    · intro g hg
      exact hf g (by simp [hg])

/-- A closing fill at least as large as the open amount resets the
accumulator and realizes the open amount on the original side. -/
lemma stepFill_excess_close (pos : PositionAcc) (f : Fill)
    (_hpos : 0 < pos.total_amount) (hle : pos.total_amount ≤ f.amount)
    (hclose : ¬ (pos.total_amount = 0 ∨
      (pos.side = some "long" ∧ f.side = "buy") ∨
      (pos.side = some "short" ∧ f.side = "sell"))) :
    (stepFill pos f).1 = emptyPositionAcc ∧
    ((stepFill pos f).2.map fun rt => (rt.quantity, rt.side)) =
      some (pos.total_amount, pos.side.getD "") := by
  unfold stepFill
  rw [if_neg hclose]
  dsimp only
  rw [min_eq_right hle]
  rw [if_pos (by rw [sub_self])]
  exact ⟨rfl, rfl⟩

/-- C10: the per-symbol open amount never becomes negative.  Over any fill
sequence with nonnegative amounts every accumulator ends with a
nonnegative open amount; a single step preserves nonnegativity; and a
closing fill whose amount is at least the open amount closes exactly the
open amount on the position's own side and resets the accumulator to
empty — the excess is discarded, never opened on the opposite side. -/
theorem open_amount_never_negative (fills : List Fill)
    (h : ∀ f ∈ fills, 0 ≤ f.amount) :
    (∀ s, 0 ≤ (pairPositions fills s).total_amount) ∧
    (∀ (pos : PositionAcc) (g : Fill), 0 ≤ pos.total_amount → 0 ≤ g.amount →
      0 ≤ ((stepFill pos g).1).total_amount) ∧
    (∀ (pos : PositionAcc) (g : Fill), 0 < pos.total_amount →
      pos.total_amount ≤ g.amount →
      ¬ (pos.total_amount = 0 ∨
        (pos.side = some "long" ∧ g.side = "buy") ∨
        (pos.side = some "short" ∧ g.side = "sell")) →
      (stepFill pos g).1 = emptyPositionAcc ∧
      ((stepFill pos g).2.map fun rt => (rt.quantity, rt.side)) =
        some (pos.total_amount, pos.side.getD "")) := by
  refine ⟨?_, stepFill_total_nonneg, stepFill_excess_close⟩
  intro s
  unfold pairPositions
  apply pairStep_foldl_nonneg
  · intro s2
    norm_num [emptyPositionAcc]
  · intro g hg
    exact h g ((List.perm_insertionSort _ fills).mem_iff.mp hg)

/-- C10 (witness): a long position of 1 closed by a sell of 2 leaves a
nonnegative (empty) accumulator. -/
theorem open_amount_never_negative_witness :
    0 ≤ (pairPositions
      [{ symbol := "PF_XBTUSD", side := "buy", amount := 1, price := 100,
         timestamp := 1, fee := 0 },
       { symbol := "PF_XBTUSD", side := "sell", amount := 2, price := 110,
         timestamp := 2, fee := 0 }] "PF_XBTUSD").total_amount :=
  (open_amount_never_negative _ (by norm_num)).1 "PF_XBTUSD"

/-- C6 (counterexample): the percent P&L of a short round trip is not
computed relative to the entry price.  Pairing a short open at 100 with a
close at 50 yields `pnl_pct = (entry/exit - 1)*100 = 100`, while the
entry-relative percent `(entry - exit)/entry * 100` is 50. -/
theorem short_pnl_pct_not_entry_relative :
    ((get_kraken_closed_trades
        [{ symbol := "PF_XBTUSD", side := "sell", amount := 1, price := 100, timestamp := 1, fee := 0 },
         { symbol := "PF_XBTUSD", side := "buy", amount := 1, price := 50, timestamp := 2, fee := 0 }]).map
        fun rt => (rt.side, rt.entry_price, rt.exit_price, rt.pnl_usd, rt.pnl_pct)) =
      [("short", 100, 50, 50, 100)] ∧
    ((100 : ℚ) - 50) / 100 * 100 = 50 ∧ (100 : ℚ) ≠ 50 := by
  refine ⟨?_, by norm_num, by norm_num⟩
  norm_num +decide [get_kraken_closed_trades, List.insertionSort,
    List.orderedInsert, pairStep, stepFill, emptyPositionAcc]

/-- C6 (amended): every closing fill realizes a round trip of quantity
`min(fill_amount, open_amount)` with P&L `(exit − entry) × qty` for a long
and `(entry − exit) × qty` for a short; the percent P&L is
`(exit/entry − 1) × 100` for a long (relative to the entry price) but
`(entry/exit − 1) × 100` for a short (relative to the exit price).  The
examples hold end to end: long 100→110 qty 5 gives +50, short 100→90
qty 5 gives +50, long 100→90 qty 5 gives −50. -/
theorem round_trip_pnl_contract (pos : PositionAcc) (f : Fill)
    (hopen : 0 < pos.total_amount) :
    (pos.side = some "long" → f.side ≠ "buy" →
      ((stepFill pos f).2.map fun rt =>
          (rt.side, rt.quantity, rt.pnl_usd, rt.pnl_pct)) =
        some ("long", min f.amount pos.total_amount,
          (f.price - pos.avg_entry) * min f.amount pos.total_amount,
          (f.price / pos.avg_entry - 1) * 100)) ∧
    (pos.side = some "short" → f.side ≠ "sell" →
      ((stepFill pos f).2.map fun rt =>
          (rt.side, rt.quantity, rt.pnl_usd, rt.pnl_pct)) =
        some ("short", min f.amount pos.total_amount,
          (pos.avg_entry - f.price) * min f.amount pos.total_amount,
          (pos.avg_entry / f.price - 1) * 100)) ∧
    ((get_kraken_closed_trades
        [{ symbol := "S", side := "buy", amount := 5, price := 100, timestamp := 1, fee := 0 },
         { symbol := "S", side := "sell", amount := 5, price := 110, timestamp := 2, fee := 0 }]).map
        fun rt => (rt.side, rt.quantity, rt.pnl_usd)) = [("long", 5, 50)] ∧
    ((get_kraken_closed_trades
        [{ symbol := "S", side := "sell", amount := 5, price := 100, timestamp := 1, fee := 0 },
         { symbol := "S", side := "buy", amount := 5, price := 90, timestamp := 2, fee := 0 }]).map
        fun rt => (rt.side, rt.quantity, rt.pnl_usd)) = [("short", 5, 50)] ∧
    ((get_kraken_closed_trades
        [{ symbol := "S", side := "buy", amount := 5, price := 100, timestamp := 1, fee := 0 },
         { symbol := "S", side := "sell", amount := 5, price := 90, timestamp := 2, fee := 0 }]).map
        fun rt => (rt.side, rt.quantity, rt.pnl_usd)) = [("long", 5, -50)] := by
  refine ⟨?_, ?_, ?_, ?_, ?_⟩
  · intro hlong hbuy
    unfold stepFill
    rw [if_neg ?_]
    · dsimp only
      rw [hlong]
      simp
    · rintro (h0 | ⟨-, hb⟩ | ⟨hs, -⟩)
      · exact absurd h0 hopen.ne'
      · exact hbuy hb
      · rw [hlong] at hs
        simp at hs
  · intro hshort hsell
    unfold stepFill
    rw [if_neg ?_]
    · dsimp only
      rw [hshort]
      simp
    · rintro (h0 | ⟨hl, -⟩ | ⟨-, hs⟩)
      · exact absurd h0 hopen.ne'
      · rw [hshort] at hl
        simp at hl
      · exact hsell hs
  · norm_num +decide [get_kraken_closed_trades, List.insertionSort,
      List.orderedInsert, pairStep, stepFill, emptyPositionAcc]
  · norm_num +decide [get_kraken_closed_trades, List.insertionSort,
      List.orderedInsert, pairStep, stepFill, emptyPositionAcc]
  · norm_num +decide [get_kraken_closed_trades, List.insertionSort,
      List.orderedInsert, pairStep, stepFill, emptyPositionAcc]

/-- C6 (witness): closing a long of 5 opened at 100 with a sell of 5 at
110 realizes quantity 5, P&L 50 and percent P&L 10. -/
theorem round_trip_pnl_contract_witness :
    ((stepFill
        { entries := [{ timestamp := 1, price := 100, amount := 5, side := "buy" }],
          side := some "long", total_amount := 5, avg_entry := 100 }
        { symbol := "S", side := "sell", amount := 5, price := 110, timestamp := 2, fee := 0 }).2.map
        fun rt => (rt.side, rt.quantity, rt.pnl_usd, rt.pnl_pct)) =
      some ("long", 5, 50, 10) := by
  have h := (round_trip_pnl_contract
    { entries := [{ timestamp := 1, price := 100, amount := 5, side := "buy" }],
      side := some "long", total_amount := 5, avg_entry := 100 }
    { symbol := "S", side := "sell", amount := 5, price := 110, timestamp := 2, fee := 0 }
    (by norm_num)).1 rfl (by decide)
  rw [h]
  norm_num
